import Mathlib

/-
Verification of the Azure Expense Tracker core (src/app.py).

The expense documents stored in Cosmos DB are Python dicts; we embed them as
a structure whose optional fields use `Option` (with `none` meaning the key is
absent).  For `receipt_url` the distinction between an absent key and a key
present with value `None` matters, so that field uses the three-valued
`JField`.

The aggregation code of the dashboard route (app.py, `index`, lines 674-687),
the upload-extension check (`allowed_file`, line 40-42), and the expense
creation route (`add_expense`, lines 704-751) are embedded directly.  The
Cosmos container itself is external to the repository; its delete semantics
are modelled from the spec where needed.

Python `float` amounts are embedded as exact rationals `ℚ`; the embedding
therefore cannot (and does not attempt to) express binary floating-point
rounding.
-/

set_option autoImplicit false

namespace ExpenseTracker

/-- Value of a JSON field of a stored document: the key may be absent, present
with value `null`, or present with a value. -/
inductive JField (α : Type) where
  | absent : JField α
  | null : JField α
  | val : α → JField α
deriving DecidableEq, Repr

/-- An expense document as stored in the Cosmos container.  `none` in an
`Option`-typed field means the key is absent from the document. -/
structure Record where
  id : String := ""
  amount : Option ℚ := none
  category : Option String := none
  description : Option String := none
  merchant : String := ""
  date : Option String := none
  receipt_url : JField String := JField.absent
  created_at : String := ""
deriving DecidableEq, Repr

/-- Python `exp.get('amount', 0)` (app.py lines 674, 678, 685). -/
def getAmount (r : Record) : ℚ := r.amount.getD 0

/-- Python `exp.get('date', '')` (app.py line 679). -/
def getDate (r : Record) : String := r.date.getD ""

/-- Python `exp.get('category', 'Other')` (app.py line 684). -/
def getCategory (r : Record) : String := r.category.getD "Other"

/-- Python `s.startswith(pre)`, character-based prefix test. -/
def startswith (s pre : String) : Bool := pre.data.isPrefixOf s.data

/-- Dashboard all-time total: `sum(exp.get('amount', 0) for exp in expenses)`
(app.py line 674). -/
def total (rs : List Record) : ℚ := (rs.map getAmount).sum

/-- Dashboard current-month total (app.py lines 678-679):
`sum(exp.get('amount', 0) for exp in expenses if exp.get('date', '').startswith(current_month))`. -/
def month_total (rs : List Record) (current_month : String) : ℚ :=
  ((rs.filter (fun r => startswith (getDate r) current_month)).map getAmount).sum

/-- One step of the dict update `categories[cat] = categories.get(cat, 0) + amt`
(app.py line 685) on an insertion-ordered association list: an existing key is
updated in place, a new key is appended. -/
def upsert (m : List (String × ℚ)) (k : String) (v : ℚ) : List (String × ℚ) :=
  match m with
  | [] => [(k, v)]
  | (k1, v1) :: rest => if k1 = k then (k1, v1 + v) :: rest else (k1, v1) :: upsert rest k v

/-- The body of the loop at app.py lines 683-685:
`categories[exp.get('category', 'Other')] = categories.get(..., 0) + exp.get('amount', 0)`. -/
def stepCat (m : List (String × ℚ)) (r : Record) : List (String × ℚ) :=
  upsert m (getCategory r) (getAmount r)

/-- The `categories` dict built by the loop at app.py lines 682-685, as an
insertion-ordered association list (Python dicts preserve insertion order). -/
def byCategory (rs : List Record) : List (String × ℚ) :=
  rs.foldl stepCat []

/-- `categories_count = len(categories)` (app.py line 695). -/
def categoryCount (rs : List Record) : Nat := (byCategory rs).length

/-- Lookup in the association list with default 0, i.e. `categories.get(cat, 0)`. -/
def lookupD (m : List (String × ℚ)) (c : String) : ℚ :=
  match m with
  | [] => 0
  | (k, v) :: rest => if k = c then v else lookupD rest c

/-- Spec-side definition, following the words of §4.2: the first-seen order of
the categories while scanning the records. -/
def firstSeenOrder (cs : List String) : List String :=
  cs.foldl (fun acc c => if acc.contains c then acc else acc ++ [c]) []

/-- Spec-side definition, following the words of §4.2: the sum of the amounts
of the records whose (effective) category is `c`. -/
def sumForCategory (rs : List Record) (c : String) : ℚ :=
  ((rs.filter (fun r => getCategory r = c)).map getAmount).sum

/-- Digit accumulator for the decimal parser. -/
def parseNatAux : List Char → Nat → Option Nat
  | [], acc => some acc
  | c :: cs, acc =>
      if c.isDigit then parseNatAux cs (acc * 10 + (c.toNat - 48)) else none

/-- Parse a non-empty all-digit string to a natural number. -/
def parseNatDigits : List Char → Option Nat
  | [] => none
  | cs => parseNatAux cs 0

/-- Unsigned decimal literal: digits with an optional single decimal point
(at least one digit overall). -/
def parseUnsignedDec (cs : List Char) : Option ℚ :=
  if cs.contains '.' then
    let intPart := cs.takeWhile (fun c => c ≠ '.')
    let fracPart := (cs.dropWhile (fun c => c ≠ '.')).drop 1
    if fracPart.contains '.' then none
    else if intPart.isEmpty && fracPart.isEmpty then none
    else do
      let ip ← if intPart.isEmpty then some 0 else parseNatDigits intPart
      let fp ← if fracPart.isEmpty then some 0 else parseNatDigits fracPart
      some ((ip : ℚ) + (fp : ℚ) / ((10 : ℚ) ^ fracPart.length))
  else
    (parseNatDigits cs).map (fun n => (n : ℚ))

/-- Model of the Python builtin `float(s)` on decimal literals (optional sign,
digits, optional fractional part), used at app.py line 710.  `none` means the
call raises (also covering `float(None)` when the form field is missing).
Exponent, infinity and whitespace forms are omitted: no claim depends on them. -/
def pyFloat (s : String) : Option ℚ :=
  match s.data with
  | [] => none
  | '-' :: rest => (parseUnsignedDec rest).map (fun q => -q)
  | '+' :: rest => parseUnsignedDec rest
  | cs => parseUnsignedDec cs

/-- `ALLOWED_EXTENSIONS = {'pdf', 'png', 'jpg', 'jpeg', 'gif'}` (app.py line 23),
as character lists. -/
def ALLOWED_EXTENSIONS : List (List Char) :=
  ["pdf".data, "png".data, "jpg".data, "jpeg".data, "gif".data]

/-- The characters after the last dot: `filename.rsplit('.', 1)[1]`. -/
def extOf (cs : List Char) : List Char :=
  (cs.reverse.takeWhile (fun c => c ≠ '.')).reverse

/-- `allowed_file` (app.py lines 40-42):
`'.' in filename and filename.rsplit('.', 1)[1].lower() in ALLOWED_EXTENSIONS`. -/
def allowed_file (filename : String) : Bool :=
  filename.data.contains '.' &&
    ALLOWED_EXTENSIONS.contains ((extOf filename.data).map Char.toLower)

/-- The POST form fields read by `add_expense` (app.py lines 710-714); `none`
means the field is missing from the request. -/
structure FormInput where
  amount : Option String := none
  category : Option String := none
  description : Option String := none
  merchant : Option String := none
  date : Option String := none
deriving DecidableEq, Repr

/-- The uploaded file of the request, if any (`request.files.get('receipt')`). -/
structure FileUpload where
  filename : String
deriving DecidableEq, Repr

/-- Outcome of one POST to `/add`: either the flash of success together with
the persisted record, or a caught exception flashed as an error. -/
inductive AddOutcome where
  | ok : Record → AddOutcome
  | error : AddOutcome
deriving DecidableEq, Repr

/-- Result of one POST to `/add`: the store afterwards, whether the blob
service was called, and the outcome. -/
structure AddResult where
  store : List Record
  blobCalled : Bool
  outcome : AddOutcome
deriving DecidableEq, Repr

/-- The expense dict assembled at app.py lines 731-740.  Every key is present;
`category`, `description` and `date` hold whatever `request.form.get` returned
(possibly `None`), `merchant` defaults to the empty string. -/
def builtRecord (form : FormInput) (q : ℚ) (r_url : JField String)
    (idStr createdAt : String) : Record :=
  { id := idStr
    amount := some q
    category := form.category
    description := form.description
    merchant := form.merchant.getD ""
    date := form.date
    receipt_url := r_url
    created_at := createdAt }

/-- The `add_expense` POST handler (app.py lines 707-748).  `uploadFails`
says whether the blob upload would raise; `url` is the blob URL it would
return; `idStr` and `createdAt` stand for the timestamp-derived id and
`datetime.now().isoformat()`.  Any raised exception is caught by the
surrounding `try`/`except`, which flashes an error and persists nothing. -/
def add_expense (form : FormInput) (file : Option FileUpload)
    (uploadFails : Bool) (url idStr createdAt : String)
    (store : List Record) : AddResult :=
  match form.amount.bind pyFloat with
  | none => { store := store, blobCalled := false, outcome := AddOutcome.error }
  | some amount =>
    match file with
    | some f =>
      if f.filename != "" && allowed_file f.filename then
        if uploadFails then
          { store := store, blobCalled := true, outcome := AddOutcome.error }
        else
          { store := store ++ [builtRecord form amount (JField.val url) idStr createdAt]
            blobCalled := true
            outcome := AddOutcome.ok (builtRecord form amount (JField.val url) idStr createdAt) }
      else
        { store := store ++ [builtRecord form amount JField.null idStr createdAt]
          blobCalled := false
          outcome := AddOutcome.ok (builtRecord form amount JField.null idStr createdAt) }
    | none =>
      { store := store ++ [builtRecord form amount JField.null idStr createdAt]
        blobCalled := false
        outcome := AddOutcome.ok (builtRecord form amount JField.null idStr createdAt) }

/-- Errors of the record store. -/
inductive StoreError where
  | notFound : StoreError
deriving DecidableEq, Repr

/-- Does record `r` have key `i` in partition `c`? -/
def isMatch (r : Record) (i c : String) : Bool :=
  r.id == i && r.category == some c

/-- Modelled from the spec: the Record Store Client's `delete(id, category)`
(§4.1) — the Cosmos container code is not part of the repository.  It
"removes exactly one record identified by the partition key `category` and
key `id`" and "fails with `NotFoundError` if no such record exists". -/
def storeDelete (store : List Record) (i c : String) :
    Except StoreError (List Record) :=
  if store.any (fun r => isMatch r i c) then
    Except.ok (store.filter (fun r => !(isMatch r i c)))
  else
    Except.error StoreError.notFound

/-- The `delete_expense` route (app.py lines 766-775): on `NotFoundError` the
exception is caught, an error is flashed and the store is unchanged.  The
boolean reports success. -/
def delete_expense (store : List Record) (i c : String) : List Record × Bool :=
  match storeDelete store i c with
  | Except.ok s2 => (s2, true)
  | Except.error _ => (store, false)

/-- Lexicographic order on character lists (by code point), the string order
used for the `ORDER BY c.date` comparison. -/
def charListLe : List Char → List Char → Bool
  | [], _ => true
  | _ :: _, [] => false
  | a :: as, b :: bs =>
      if a = b then charListLe as bs else decide (a.toNat < b.toNat)

/-- Descending insertion by date, modelling the order of
`SELECT * FROM c ORDER BY c.date DESC` (app.py lines 670, 758); ties keep a
store-defined (here: stable) relative order, which the spec leaves open. -/
def insertByDate (r : Record) : List Record → List Record
  | [] => [r]
  | s :: rest =>
      if charListLe (getDate s).data (getDate r).data then r :: s :: rest
      else s :: insertByDate r rest

/-- The record sequence returned by the listing query: all records sorted by
`date` descending (app.py `list_expenses`, lines 754-760). -/
def listExpenses (store : List Record) : List Record :=
  store.foldr insertByDate []

/-- The "Recent Expenses" list of the dashboard: `expenses[:10]`
(app.py line 690). -/
def dashboardRecent (store : List Record) : List Record :=
  (listExpenses store).take 10

/-! Helper lemmas about the aggregation functions. -/

@[simp]
lemma total_nil : total [] = 0 := rfl

@[simp]
lemma total_cons (r : Record) (rs : List Record) :
    total (r :: rs) = getAmount r + total rs := by
  simp [total]

@[simp]
lemma month_total_nil (m : String) : month_total [] m = 0 := rfl

lemma month_total_cons (r : Record) (rs : List Record) (m : String) :
    month_total (r :: rs) m
      = (if startswith (getDate r) m then getAmount r else 0) + month_total rs m := by
  simp only [month_total, List.filter_cons]
  split
  · simp
  · simp

@[simp]
lemma sumForCategory_nil (c : String) : sumForCategory [] c = 0 := rfl

lemma sumForCategory_cons (r : Record) (rs : List Record) (c : String) :
    sumForCategory (r :: rs) c
      = (if getCategory r = c then getAmount r else 0) + sumForCategory rs c := by
  simp only [sumForCategory, List.filter_cons]
  split
  · next h => simp_all
  · next h => simp_all

lemma lookupD_upsert (m : List (String × ℚ)) (k : String) (v : ℚ) (c : String) :
    lookupD (upsert m k v) c = lookupD m c + (if k = c then v else 0) := by
  induction m with
  | nil => simp [upsert, lookupD]
  | cons p rest ih =>
    obtain ⟨k1, v1⟩ := p
    by_cases h1 : k1 = k
    · subst h1
      by_cases h2 : k1 = c
      · subst h2
        simp [upsert, lookupD]
      · simp [upsert, lookupD, h2]
    · by_cases h2 : k1 = c
      · subst h2
        have : ¬ k = k1 := fun h => h1 h.symm
        simp [upsert, lookupD, h1, this]
      · simp [upsert, lookupD, h1, h2, ih]

lemma lookupD_foldl (rs : List Record) :
    ∀ (m : List (String × ℚ)) (c : String),
      lookupD (rs.foldl stepCat m) c = lookupD m c + sumForCategory rs c := by
  induction rs with
  | nil => intro m c; simp
  | cons r rs ih =>
    intro m c
    rw [List.foldl_cons, ih, sumForCategory_cons, stepCat, lookupD_upsert]
    ring

lemma lookupD_byCategory (rs : List Record) (c : String) :
    lookupD (byCategory rs) c = sumForCategory rs c := by
  have h := lookupD_foldl rs [] c
  simpa [byCategory, lookupD] using h

lemma keys_upsert (m : List (String × ℚ)) (k : String) (v : ℚ) :
    (upsert m k v).map Prod.fst
      = if (m.map Prod.fst).contains k then m.map Prod.fst
        else m.map Prod.fst ++ [k] := by
  induction m with
  | nil => simp [upsert]
  | cons p rest ih =>
    obtain ⟨k1, v1⟩ := p
    by_cases h1 : k1 = k
    · subst h1
      simp [upsert]
    · have h1b : (k == k1) = false := by
        simp only [beq_eq_false_iff_ne, ne_eq]
        exact fun h => h1 h.symm
      simp only [upsert, if_neg h1, List.map_cons, List.contains_cons, ih, h1b,
        Bool.false_or]
      cases h2 : (rest.map Prod.fst).contains k
      · simp [h2]
      · simp [h2]

lemma keys_foldl (rs : List Record) :
    ∀ m : List (String × ℚ),
      (rs.foldl stepCat m).map Prod.fst
        = rs.foldl
            (fun acc r =>
              if acc.contains (getCategory r) then acc else acc ++ [getCategory r])
            (m.map Prod.fst) := by
  induction rs with
  | nil => intro m; rfl
  | cons r rs ih =>
    intro m
    rw [List.foldl_cons, List.foldl_cons, ih, stepCat, keys_upsert]

lemma keys_byCategory (rs : List Record) :
    (byCategory rs).map Prod.fst = firstSeenOrder (rs.map getCategory) := by
  rw [byCategory, keys_foldl rs [], firstSeenOrder, List.foldl_map]
  rfl

lemma mem_foldl_seen (a : String) (cs : List String) :
    ∀ acc : List String,
      (a ∈ cs.foldl
          (fun acc c => if acc.contains c then acc else acc ++ [c]) acc)
        ↔ a ∈ acc ∨ a ∈ cs := by
  induction cs with
  | nil => intro acc; simp
  | cons c cs ih =>
    intro acc
    rw [List.foldl_cons, ih]
    by_cases h : acc.contains c
    · have hc : c ∈ acc := by simpa using h
      simp only [if_pos h, List.mem_cons]
      constructor
      · rintro (ha | ha)
        · exact Or.inl ha
        · exact Or.inr (Or.inr ha)
      · rintro (ha | ha | ha)
        · exact Or.inl ha
        · exact Or.inl (ha ▸ hc)
        · exact Or.inr ha
    · simp only [if_neg h, List.mem_append, List.mem_singleton, List.mem_cons]
      tauto

lemma mem_firstSeenOrder (a : String) (cs : List String) :
    a ∈ firstSeenOrder cs ↔ a ∈ cs := by
  rw [firstSeenOrder, mem_foldl_seen]
  simp

lemma mem_keys_byCategory (c : String) (rs : List Record) :
    c ∈ (byCategory rs).map Prod.fst ↔ c ∈ rs.map getCategory := by
  rw [keys_byCategory, mem_firstSeenOrder]

lemma length_filter_not {α : Type} (p : α → Bool) (l : List α) :
    (l.filter p).length + (l.filter (fun x => !(p x))).length = l.length :=
  (List.length_eq_length_filter_add (l := l) p).symm

lemma mem_insertByDate (x r : Record) (l : List Record) :
    x ∈ insertByDate r l ↔ x = r ∨ x ∈ l := by
  induction l with
  | nil => simp [insertByDate]
  | cons s rest ih =>
    by_cases h : charListLe (getDate s).data (getDate r).data
    · simp [insertByDate, h]
    · simp only [insertByDate, if_neg h, List.mem_cons, ih]
      tauto

lemma snd_sum_upsert (m : List (String × ℚ)) (k : String) (v : ℚ) :
    ((upsert m k v).map Prod.snd).sum = (m.map Prod.snd).sum + v := by
  induction m with
  | nil => simp [upsert]
  | cons p rest ih =>
    obtain ⟨k1, v1⟩ := p
    by_cases h : k1 = k
    · subst h
      simp [upsert]
      ring
    · simp [upsert, h, ih]
      ring

lemma snd_sum_foldl (rs : List Record) :
    ∀ m : List (String × ℚ),
      ((rs.foldl stepCat m).map Prod.snd).sum = (m.map Prod.snd).sum + total rs := by
  induction rs with
  | nil => intro m; simp
  | cons r rs ih =>
    intro m
    rw [List.foldl_cons, ih, stepCat, snd_sum_upsert, total_cons]
    ring

lemma startswith_empty (m : String) (hm : m.data ≠ []) :
    startswith "" m = false := by
  rw [startswith]
  cases h : m.data with
  | nil => exact absurd h hm
  | cons c cs => rfl

lemma mem_listExpenses (x : Record) (store : List Record) :
    x ∈ listExpenses store ↔ x ∈ store := by
  induction store with
  | nil => simp [listExpenses]
  | cons s rest ih =>
    show x ∈ insertByDate s (listExpenses rest) ↔ _
    rw [mem_insertByDate, ih]
    simp

/-! Claim theorems. -/

/-- C4: for every finite sequence of records, `total` equals the sum of all
values of `byCategory`, and the total of the empty sequence is 0. -/
theorem c4_total_eq_sum_byCategory :
    (∀ rs : List Record, total rs = ((byCategory rs).map Prod.snd).sum) ∧
    total ([] : List Record) = 0 := by
  constructor
  · intro rs
    have h := snd_sum_foldl rs []
    simpa [byCategory] using h.symm
  · rfl

/-- Record with a negative amount dated outside the reference month, used to
refute C5 as universally stated. -/
def c5Rec : Record := { amount := some (-5), date := some "2020-01-01" }

/-- C5 counterexample: with a record of amount -5 dated 2020-01-01, the
current-month total (0) exceeds the all-time total (-5), so
`periodTotal ≤ total` fails for this sequence of records. -/
theorem c5_counterexample :
    ¬ (month_total [c5Rec] "2026-10" ≤ total [c5Rec]) := by
  simp [month_total, total, getAmount, getDate, startswith, c5Rec]

/-- C5 (amended): for records whose amounts are all non-negative, the
current-month total is at most the all-time total, with equality when every
record's date falls in the current month. -/
theorem c5_amended_monthTotal_le (rs : List Record) (m : String)
    (h : ∀ r ∈ rs, 0 ≤ getAmount r) :
    month_total rs m ≤ total rs ∧
    ((∀ r ∈ rs, startswith (getDate r) m = true) → month_total rs m = total rs) := by
  induction rs with
  | nil => exact ⟨by simp, fun _ => rfl⟩
  | cons r rs ih =>
    have h0 : 0 ≤ getAmount r := h r (List.mem_cons_self r rs)
    obtain ⟨ihle, iheq⟩ := ih (fun x hx => h x (List.mem_cons_of_mem r hx))
    constructor
    · rw [month_total_cons, total_cons]
      by_cases hs : startswith (getDate r) m
      · rw [if_pos hs]
        exact add_le_add_left ihle _
      · rw [if_neg hs]
        linarith
    · intro hall
      rw [month_total_cons, total_cons,
        if_pos (hall r (List.mem_cons_self r rs)),
        iheq (fun x hx => hall x (List.mem_cons_of_mem r hx))]

/-- Witness for the amended C5 at a concrete one-record store whose only
record is dated in the current month. -/
theorem c5_amended_witness :
    month_total [({ amount := some 3, date := some "2026-10-01" } : Record)] "2026-10"
      ≤ total [({ amount := some 3, date := some "2026-10-01" } : Record)] ∧
    month_total [({ amount := some 3, date := some "2026-10-01" } : Record)] "2026-10"
      = total [({ amount := some 3, date := some "2026-10-01" } : Record)] := by
  have h : ∀ r ∈ [({ amount := some 3, date := some "2026-10-01" } : Record)],
      0 ≤ getAmount r := by
    intro r hr
    simp only [List.mem_singleton] at hr
    subst hr
    simp [getAmount]
  have h2 := c5_amended_monthTotal_le
    [({ amount := some 3, date := some "2026-10-01" } : Record)] "2026-10" h
  refine ⟨h2.1, h2.2 ?_⟩
  intro r hr
  simp only [List.mem_singleton] at hr
  subst hr
  decide

/-- C6: for records that all carry a category, `byCategory` lists the
categories in first-seen scan order and maps each to the sum of the amounts
of the records with that category. -/
theorem c6_byCategory_spec (rs : List Record)
    (_h : ∀ r ∈ rs, (r.category).isSome = true) :
    (byCategory rs).map Prod.fst = firstSeenOrder (rs.map getCategory) ∧
    (∀ c, lookupD (byCategory rs) c = sumForCategory rs c) :=
  ⟨keys_byCategory rs, fun c => lookupD_byCategory rs c⟩

/-- The three-record store of the spec's §8 scenario. -/
def c6Recs : List Record :=
  [{ amount := some 450, category := some "Food" },
   { amount := some 200, category := some "Transport" },
   { amount := some 1500, category := some "Shopping" }]

/-- Witness for C6 at the §8 scenario store. -/
theorem c6_witness :
    (∀ r ∈ c6Recs, (r.category).isSome = true) ∧
    (byCategory c6Recs).map Prod.fst = firstSeenOrder (c6Recs.map getCategory) ∧
    lookupD (byCategory c6Recs) "Food" = sumForCategory c6Recs "Food" := by
  have h : ∀ r ∈ c6Recs, (r.category).isSome = true := by decide
  have h2 := c6_byCategory_spec c6Recs h
  exact ⟨h, h2.1, h2.2 "Food"⟩

/-- C9: a record lacking a category field is aggregated under the key
"Other": its amount is added to that key's total, "Other" appears among the
keys, and it is counted by `categoryCount`. -/
theorem c9_missing_category (r : Record) (rs : List Record)
    (h : r.category = none) :
    getCategory r = "Other" ∧
    lookupD (byCategory (r :: rs)) "Other"
      = getAmount r + lookupD (byCategory rs) "Other" ∧
    "Other" ∈ (byCategory (r :: rs)).map Prod.fst ∧
    0 < categoryCount (r :: rs) := by
  have hc : getCategory r = "Other" := by simp [getCategory, h]
  have hmem : "Other" ∈ (byCategory (r :: rs)).map Prod.fst := by
    rw [mem_keys_byCategory, List.map_cons, hc]
    exact List.mem_cons_self _ _
  refine ⟨hc, ?_, hmem, ?_⟩
  · rw [lookupD_byCategory, lookupD_byCategory, sumForCategory_cons, hc]
    simp
  · have hlen := List.length_pos.mpr (List.ne_nil_of_mem hmem)
    rwa [List.length_map] at hlen

/-- Witness for C9: a record with an amount but no category contributes to
key "Other". -/
theorem c9_witness :
    getCategory ({ amount := some 4 } : Record) = "Other" ∧
    lookupD (byCategory [({ amount := some 4 } : Record)]) "Other"
      = getAmount ({ amount := some 4 } : Record) + lookupD (byCategory []) "Other" := by
  have h := c9_missing_category ({ amount := some 4 } : Record) [] rfl
  exact ⟨h.1, h.2.1⟩

/-- C10: the aggregations are total on records missing fields; a missing
amount contributes 0 to `total`, `month_total` and every `byCategory` entry,
and a missing date reads as the empty string and never matches a non-empty
month prefix. -/
theorem c10_missing_fields_default (r : Record) (rs : List Record) (m : String) :
    (r.amount = none →
      total (r :: rs) = total rs ∧
      month_total (r :: rs) m = month_total rs m ∧
      (∀ c, lookupD (byCategory (r :: rs)) c = lookupD (byCategory rs) c)) ∧
    (r.date = none → m.data ≠ [] →
      month_total (r :: rs) m = month_total rs m) := by
  constructor
  · intro ha
    have h0 : getAmount r = 0 := by simp [getAmount, ha]
    refine ⟨?_, ?_, ?_⟩
    · rw [total_cons, h0, zero_add]
    · rw [month_total_cons, h0]
      simp
    · intro c
      rw [lookupD_byCategory, lookupD_byCategory, sumForCategory_cons, h0]
      simp
  · intro hd hm
    have hdd : getDate r = "" := by simp [getDate, hd]
    rw [month_total_cons, hdd, startswith_empty m hm]
    simp

/-- Witness for C10: a record with every optional field absent changes
neither the total nor the month total of a one-record store. -/
theorem c10_witness :
    total [({} : Record), ({ amount := some 2, date := some "2026-10-01" } : Record)]
      = total [({ amount := some 2, date := some "2026-10-01" } : Record)] ∧
    month_total
        [({} : Record), ({ amount := some 2, date := some "2026-10-01" } : Record)]
        "2026-10"
      = month_total [({ amount := some 2, date := some "2026-10-01" } : Record)]
        "2026-10" := by
  have h := c10_missing_fields_default ({} : Record)
    [({ amount := some 2, date := some "2026-10-01" } : Record)] "2026-10"
  exact ⟨(h.1 rfl).1, h.2 rfl (by decide)⟩

/-- The form input of the C1 scenario: amount "-5", all other fields valid. -/
def c1Form : FormInput :=
  { amount := some "-5", category := some "Food",
    description := some "Lunch", merchant := none, date := some "2026-10-12" }

/-- C1 counterexample: the input with amount "-5" (which parses to the
negative decimal -5) does not fail — `add_expense` succeeds and persists a
record with amount -5, so no `ValidationError` behavior exists. -/
theorem c1_counterexample :
    pyFloat "-5" = some (-5) ∧
    add_expense c1Form none false "u" "exp_1" "t0" []
      = { store := [builtRecord c1Form (-5) JField.null "exp_1" "t0"],
          blobCalled := false,
          outcome := AddOutcome.ok (builtRecord c1Form (-5) JField.null "exp_1" "t0") } ∧
    (builtRecord c1Form (-5) JField.null "exp_1" "t0").amount = some (-5) :=
  ⟨by decide, by decide, rfl⟩

/-- C1 (amended): the only input check `add_expense` performs is
`float(amount)` — if the amount field is absent or unparsable the request
fails with nothing persisted; any parsed amount (negative included) together
with whatever category, description and date the form carries (empty or
missing included) is persisted. -/
theorem c1_amended_only_parse_failure (form : FormInput) (uf : Bool)
    (url idStr createdAt : String) (store : List Record) :
    (form.amount.bind pyFloat = none →
      add_expense form none uf url idStr createdAt store
        = { store := store, blobCalled := false, outcome := AddOutcome.error }) ∧
    (∀ q : ℚ, form.amount.bind pyFloat = some q →
      add_expense form none uf url idStr createdAt store
        = { store := store ++ [builtRecord form q JField.null idStr createdAt],
            blobCalled := false,
            outcome := AddOutcome.ok (builtRecord form q JField.null idStr createdAt) }) := by
  constructor
  · intro h
    simp [add_expense, h]
  · intro q h
    simp [add_expense, h]

/-- Witness for the amended C1: an unparsable amount fails and persists
nothing; amount "7" with an empty category is accepted and persisted. -/
theorem c1_amended_witness :
    add_expense ({ amount := some "abc" } : FormInput) none false "u" "exp_1" "t0" []
      = { store := [], blobCalled := false, outcome := AddOutcome.error } ∧
    add_expense ({ amount := some "7", category := some "" } : FormInput) none false
        "u" "exp_1" "t0" []
      = { store := [builtRecord ({ amount := some "7", category := some "" } : FormInput)
            7 JField.null "exp_1" "t0"],
          blobCalled := false,
          outcome := AddOutcome.ok
            (builtRecord ({ amount := some "7", category := some "" } : FormInput)
              7 JField.null "exp_1" "t0") } := by
  constructor
  · exact (c1_amended_only_parse_failure ({ amount := some "abc" } : FormInput)
      false "u" "exp_1" "t0" []).1 (by decide)
  · exact (c1_amended_only_parse_failure
      ({ amount := some "7", category := some "" } : FormInput)
      false "u" "exp_1" "t0" []).2 7 (by decide)

/-- The form input used for the C2 scenario: a valid expense form. -/
def c2Form : FormInput :=
  { amount := some "10", category := some "Food",
    description := some "Lunch", merchant := none, date := some "2026-10-12" }

/-- C2 counterexample: uploading `receipt.exe` indeed makes no blob call, but
the operation does not fail — the record is persisted (with a null
receipt_url), so no `UnsupportedFileTypeError` is raised or propagated. -/
theorem c2_counterexample :
    allowed_file "receipt.exe" = false ∧
    add_expense c2Form (some { filename := "receipt.exe" }) false "u" "exp_1" "t0" []
      = { store := [builtRecord c2Form 10 JField.null "exp_1" "t0"],
          blobCalled := false,
          outcome := AddOutcome.ok (builtRecord c2Form 10 JField.null "exp_1" "t0") } :=
  ⟨by decide, by decide⟩

/-- C2 (amended): a file whose name fails `allowed_file` is silently skipped
— no blob call occurs (whatever the upload would have done) and the record is
persisted with a null receipt_url; an accepted file whose upload raises
aborts the request with nothing persisted. -/
theorem c2_amended_upload_behavior (form : FormInput) (q : ℚ) (f : FileUpload)
    (uf : Bool) (url idStr createdAt : String) (store : List Record)
    (hq : form.amount.bind pyFloat = some q) :
    (allowed_file f.filename = false →
      add_expense form (some f) uf url idStr createdAt store
        = { store := store ++ [builtRecord form q JField.null idStr createdAt],
            blobCalled := false,
            outcome := AddOutcome.ok (builtRecord form q JField.null idStr createdAt) }) ∧
    ((f.filename != "") = true → allowed_file f.filename = true →
      add_expense form (some f) true url idStr createdAt store
        = { store := store, blobCalled := true, outcome := AddOutcome.error }) := by
  constructor
  · intro hf
    simp [add_expense, hq, hf]
  · intro hne hf
    simp [add_expense, hq, hne, hf]

/-- Witness for the amended C2: `receipt.exe` is skipped and the record
persisted even though the upload would have failed; `receipt.pdf` with a
failing upload aborts with nothing persisted. -/
theorem c2_amended_witness :
    add_expense c2Form (some { filename := "receipt.exe" }) true "u" "exp_1" "t0" []
      = { store := [builtRecord c2Form 10 JField.null "exp_1" "t0"],
          blobCalled := false,
          outcome := AddOutcome.ok (builtRecord c2Form 10 JField.null "exp_1" "t0") } ∧
    add_expense c2Form (some { filename := "receipt.pdf" }) true "u" "exp_1" "t0" []
      = { store := [], blobCalled := true, outcome := AddOutcome.error } := by
  constructor
  · exact (c2_amended_upload_behavior c2Form 10 { filename := "receipt.exe" }
      true "u" "exp_1" "t0" [] (by decide)).1 (by decide)
  · exact (c2_amended_upload_behavior c2Form 10 { filename := "receipt.pdf" }
      true "u" "exp_1" "t0" [] (by decide)).2 (by decide) (by decide)

/-- The form input used for the C7 scenario: a valid expense form. -/
def c7Form : FormInput :=
  { amount := some "10", category := some "Food",
    description := some "Dinner", merchant := none, date := some "2026-10-12" }

/-- C7 counterexample: with no file supplied the persisted document still
carries the `receipt_url` key — present with a null value, not absent. -/
theorem c7_counterexample :
    (add_expense c7Form none false "u" "exp_1" "t0" []).store.map Record.receipt_url
      = [JField.null] ∧
    (JField.null : JField String) ≠ JField.absent :=
  ⟨by decide, by decide⟩

/-- C7 (amended): the persisted record always carries the `receipt_url`
field: null when no attachment was uploaded, the blob URL when one was; the
assembled record's `receipt_url` is exactly what the branch set, never
absent. -/
theorem c7_amended_receipt_url (form : FormInput) (q : ℚ) (uf : Bool)
    (url idStr createdAt : String) (store : List Record)
    (hq : form.amount.bind pyFloat = some q) :
    ((add_expense form none uf url idStr createdAt store).store
      = store ++ [builtRecord form q JField.null idStr createdAt]) ∧
    (∀ f : FileUpload, (f.filename != "") = true → allowed_file f.filename = true →
      (add_expense form (some f) false url idStr createdAt store).store
        = store ++ [builtRecord form q (JField.val url) idStr createdAt]) ∧
    (∀ u2 : JField String,
      (builtRecord form q u2 idStr createdAt).receipt_url = u2) := by
  refine ⟨?_, ?_, fun u2 => rfl⟩
  · simp [add_expense, hq]
  · intro f hne hf
    simp [add_expense, hq, hne, hf]

/-- Witness for the amended C7: no file gives a null receipt_url, an uploaded
`r.png` gives the blob URL. -/
theorem c7_amended_witness :
    (add_expense c7Form none false "u" "exp_1" "t0" []).store
      = [builtRecord c7Form 10 JField.null "exp_1" "t0"] ∧
    (add_expense c7Form (some { filename := "r.png" }) false "u" "exp_1" "t0" []).store
      = [builtRecord c7Form 10 (JField.val "u") "exp_1" "t0"] := by
  constructor
  · exact (c7_amended_receipt_url c7Form 10 false "u" "exp_1" "t0" [] (by decide)).1
  · exact (c7_amended_receipt_url c7Form 10 false "u" "exp_1" "t0" [] (by decide)).2.1
      { filename := "r.png" } (by decide) (by decide)

/-- C3: under the store's partition-key discipline (at most one record per
(id, category) pair), a delete of an existing (id, category) removes exactly
that record — the store shrinks by one, every other record is kept, and no
record with that (id, category) appears in any subsequent listing or
dashboard view; a delete of a nonexistent (id, category) fails with
`NotFoundError` and the route leaves the store unchanged. -/
theorem c3_delete_spec (store : List Record) (i c : String)
    (huniq : (store.filter (fun r => isMatch r i c)).length ≤ 1) :
    (store.any (fun r => isMatch r i c) = true →
      storeDelete store i c
        = Except.ok (store.filter (fun r => !(isMatch r i c))) ∧
      (store.filter (fun r => !(isMatch r i c))).length + 1 = store.length ∧
      (∀ x ∈ listExpenses (store.filter (fun r => !(isMatch r i c))),
        isMatch x i c = false) ∧
      (∀ x ∈ dashboardRecent (store.filter (fun r => !(isMatch r i c))),
        isMatch x i c = false) ∧
      (∀ x ∈ store, isMatch x i c = false →
        x ∈ listExpenses (store.filter (fun r => !(isMatch r i c))))) ∧
    (store.any (fun r => isMatch r i c) = false →
      storeDelete store i c = Except.error StoreError.notFound ∧
      delete_expense store i c = (store, false)) := by
  constructor
  · intro hany
    have hdel : storeDelete store i c
        = Except.ok (store.filter (fun r => !(isMatch r i c))) := by
      simp [storeDelete, hany]
    have hone : (store.filter (fun r => isMatch r i c)).length = 1 := by
      have hpos : 0 < (store.filter (fun r => isMatch r i c)).length := by
        rw [List.any_eq_true] at hany
        obtain ⟨x, hx, hpx⟩ := hany
        exact List.length_pos.mpr
          (List.ne_nil_of_mem (List.mem_filter.mpr ⟨hx, hpx⟩))
      omega
    refine ⟨hdel, ?_, ?_, ?_, ?_⟩
    · have hsplit := length_filter_not (fun r => isMatch r i c) store
      omega
    · intro x hx
      rw [mem_listExpenses] at hx
      have hx2 := (List.mem_filter.mp hx).2
      simpa using hx2
    · intro x hx
      have hx1 : x ∈ listExpenses (store.filter (fun r => !(isMatch r i c))) :=
        List.take_subset 10 _ hx
      rw [mem_listExpenses] at hx1
      have hx2 := (List.mem_filter.mp hx1).2
      simpa using hx2
    · intro x hx hnm
      rw [mem_listExpenses]
      exact List.mem_filter.mpr ⟨hx, by simp [hnm]⟩
  · intro hany
    refine ⟨by simp [storeDelete, hany], ?_⟩
    simp [delete_expense, storeDelete, hany]

/-- A two-record store for exercising delete. -/
def c3Store : List Record :=
  [{ id := "exp_001", amount := some 450, category := some "Food",
     date := some "2025-10-20" },
   { id := "exp_002", amount := some 200, category := some "Transport",
     date := some "2025-10-21" }]

/-- Witness for C3: deleting ("exp_001", "Food") succeeds and filters the
store; deleting ("exp_001", "Transport") — no such pair — leaves the store
unchanged and reports failure. -/
theorem c3_delete_witness :
    storeDelete c3Store "exp_001" "Food"
      = Except.ok (c3Store.filter (fun r => !(isMatch r "exp_001" "Food"))) ∧
    delete_expense c3Store "exp_001" "Transport" = (c3Store, false) := by
  constructor
  · exact ((c3_delete_spec c3Store "exp_001" "Food" (by decide)).1 (by decide)).1
  · exact ((c3_delete_spec c3Store "exp_001" "Transport" (by decide)).2 (by decide)).2

end ExpenseTracker
